import Mathlib

/-!
Shallow embedding of `src/src/icp_rust_boilerplate_backend/src/lib.rs`
(a car-rental CRUD canister) and proofs about it.

The canister state consists of a global identifier counter and two ordered
maps (cars, rental requests).  Rust `u64`/`u32` fields are modelled as `Nat`;
the two collaborator types that live outside `src/` (`ic_stable_structures`
cell and B-tree map, and the candid serializer) are modelled from the spec,
as marked on their definitions.  A canister trap (Rust `expect` firing) is
modelled as `none`: a trapped call produces no return value and commits no
state change.
-/

namespace CarRental

/-- The possible statuses of a rental request (`enum RentalStatus` in
`lib.rs`): `Pending`, `Active`, `Completed`, `Canceled`. -/
inductive RentalStatus where
  | Pending
  | Active
  | Completed
  | Canceled
deriving DecidableEq

/-- A vehicle record (`struct Car` in `lib.rs`). `id : u64` and `year : u32`
are modelled as `Nat`. -/
structure Car where
  id : Nat
  make : String
  model : String
  year : Nat
  available : Bool
deriving DecidableEq

/-- A rental-request record (`struct RentalRequest` in `lib.rs`); all the
`u64` fields are modelled as `Nat`. -/
structure RentalRequest where
  id : Nat
  car_id : Nat
  customer_id : Nat
  start_date : Nat
  end_date : Nat
  status : RentalStatus
deriving DecidableEq

/-- The error type of the canister (`enum Error` in `lib.rs`). -/
inductive Error where
  | NotFound (msg : String)
  | InvalidInput (msg : String)
deriving DecidableEq

/-- Modelled from the spec: the `StableBTreeMap` of `ic_stable_structures`
(not under `src/`) per spec §4.3 is an ordered map `u64 → T`.  We represent
a map as its association list in strictly ascending key order; `mapInsert`
is ordered insertion, replacing the value when the key is already bound
(the `insert` of §4.3 returns the previous value, which `lib.rs` discards). -/
def mapInsert (k : Nat) (v : α) : List (Nat × α) → List (Nat × α)
  | [] => [(k, v)]
  | (k', v') :: t =>
    if k < k' then (k, v) :: (k', v') :: t
    else if k = k' then (k, v) :: t
    else (k', v') :: mapInsert k v t

/-- Modelled from the spec: `get` of the ordered map (§4.3), written against
the association-list representation. -/
def mapGet (k : Nat) : List (Nat × α) → Option α
  | [] => none
  | (k', v') :: t => if k = k' then some v' else mapGet k t

/-- Modelled from the spec: `remove` of the ordered map (§4.3).  Returns the
removed value (if any) together with the map after removal. -/
def mapRemove (k : Nat) : List (Nat × α) → Option α × List (Nat × α)
  | [] => (none, [])
  | (k', v') :: t =>
    if k = k' then (some v', t)
    else ((mapRemove k t).1, (k', v') :: (mapRemove k t).2)

/-- The whole canister state: the `ID_COUNTER` cell and the two stable maps
(`CAR_STORAGE`, `RENTAL_REQUEST_STORAGE`) of `lib.rs`. -/
structure State where
  counter : Nat
  cars : List (Nat × Car)
  rentals : List (Nat × RentalRequest)
deriving DecidableEq

/-- The initial state: counter initialized to `0` (`IdCell::init(…, 0)` in
`lib.rs`), both maps empty. -/
def initState : State := { counter := 0, cars := [], rentals := [] }

/-- Modelled from the spec: the scalar-cell write of §4.2
(`ic_stable_structures::Cell::set`, not under `src/`).  The spec's
`increment_and_get` "atomically reads the current value, writes
`current + 1`, and returns the new value", so a successful `set` yields the
value just written; `ok` is the oracle for whether the underlying durable
write succeeds, and `none` models a failed write. -/
def cellSet (ok : Bool) (v : Nat) : Option Nat :=
  if ok then some v else none

/-- `add_car` of `lib.rs`: mints `counter + 1` as the fresh id (panicking —
modelled as `none` — when the counter write fails, per the
`expect("Cannot increment id counter")`), builds the car with
`available := true`, inserts it under its own id, and returns `Ok(car)`. -/
def add_car (ok : Bool) (make model : String) (year : Nat) (s : State) :
    Option (Except Error Car × State) :=
  match cellSet ok (s.counter + 1) with
  | none => none
  | some id =>
    let car : Car := { id := id, make := make, model := model, year := year, available := true }
    some (Except.ok car, { s with counter := s.counter + 1, cars := mapInsert id car s.cars })

/-- `delete_car` of `lib.rs`: removes the entry, returning `Ok(())` when one
was present and `Err(NotFound)` otherwise. -/
def delete_car (id : Nat) (s : State) : Except Error Unit × State :=
  match mapRemove id s.cars with
  | (some _, cars') => (Except.ok (), { s with cars := cars' })
  | (none, cars') =>
    (Except.error (Error.NotFound ("Car with id=" ++ toString id ++ " not found")), { s with cars := cars' })

/-- `get_car` of `lib.rs`. -/
def get_car (id : Nat) (s : State) : Except Error Car :=
  match mapGet id s.cars with
  | some car => Except.ok car
  | none => Except.error (Error.NotFound ("Car with id=" ++ toString id ++ " not found"))

/-- `get_rental_request` of `lib.rs`. -/
def get_rental_request (id : Nat) (s : State) : Except Error RentalRequest :=
  match mapGet id s.rentals with
  | some r => Except.ok r
  | none => Except.error (Error.NotFound ("Rental request with id=" ++ toString id ++ " not found"))

/-- `list_cars` of `lib.rs`: iterate the map (ascending key order per §4.3)
and keep the values. -/
def list_cars (s : State) : List Car :=
  s.cars.map Prod.snd

/-- `list_rental_requests` of `lib.rs`. -/
def list_rental_requests (s : State) : List RentalRequest :=
  s.rentals.map Prod.snd

/-- `add_rental_request` of `lib.rs`: same creation path as `add_car`. -/
def add_rental_request (ok : Bool) (car_id customer_id start_date end_date : Nat)
    (status : RentalStatus) (s : State) :
    Option (Except Error RentalRequest × State) :=
  match cellSet ok (s.counter + 1) with
  | none => none
  | some id =>
    let rental_request : RentalRequest :=
      { id := id, car_id := car_id, customer_id := customer_id,
        start_date := start_date, end_date := end_date, status := status }
    some (Except.ok rental_request,
      { s with counter := s.counter + 1, rentals := mapInsert id rental_request s.rentals })

/-- `delete_rental_request` of `lib.rs`. -/
def delete_rental_request (id : Nat) (s : State) : Except Error Unit × State :=
  match mapRemove id s.rentals with
  | (some _, rentals') => (Except.ok (), { s with rentals := rentals' })
  | (none, rentals') =>
    (Except.error (Error.NotFound ("Rental request with id=" ++ toString id ++ " not found")),
     { s with rentals := rentals' })

/-- `list_rental_requests_for_car` of `lib.rs`: linear scan keeping the
requests whose `car_id` equals the argument. -/
def list_rental_requests_for_car (car_id : Nat) (s : State) : List RentalRequest :=
  s.rentals.filterMap (fun p => if p.2.car_id = car_id then some p.2 else none)

/-- `list_rental_requests_for_customer` of `lib.rs`. -/
def list_rental_requests_for_customer (customer_id : Nat) (s : State) : List RentalRequest :=
  s.rentals.filterMap (fun p => if p.2.customer_id = customer_id then some p.2 else none)

/-- `update_car` of `lib.rs`: when `id` is bound, clone the stored car,
overwrite `make`/`model`/`year` (leaving `id` and `available` as stored),
re-insert under the same id and return the updated car; otherwise
`Err(NotFound)`. -/
def update_car (id : Nat) (make model : String) (year : Nat) (s : State) :
    Except Error Car × State :=
  match mapGet id s.cars with
  | some car =>
    let updated_car : Car := { car with make := make, model := model, year := year }
    (Except.ok updated_car, { s with cars := mapInsert id updated_car s.cars })
  | none =>
    (Except.error (Error.NotFound ("Car with id=" ++ toString id ++ " not found")), s)

/-- `update_rental_request` of `lib.rs`: rewrites every non-`id` field of the
stored request. -/
def update_rental_request (id : Nat) (car_id customer_id start_date end_date : Nat)
    (status : RentalStatus) (s : State) :
    Except Error RentalRequest × State :=
  match mapGet id s.rentals with
  | some rental_request =>
    let updated_rental_request : RentalRequest :=
      { rental_request with
        car_id := car_id
        customer_id := customer_id
        start_date := start_date
        end_date := end_date
        status := status }
    (Except.ok updated_rental_request,
     { s with rentals := mapInsert id updated_rental_request s.rentals })
  | none =>
    (Except.error (Error.NotFound ("Rental request with id=" ++ toString id ++ " not found")), s)

/-- The state-mutating entry points of `lib.rs`, as an operation alphabet
for reasoning about arbitrary interleavings (queries are pure and excluded).
The `ok` flag of the creation operations is the §4.2 write-success oracle. -/
inductive Op where
  | addCar (ok : Bool) (make model : String) (year : Nat)
  | addRental (ok : Bool) (car_id customer_id start_date end_date : Nat) (status : RentalStatus)
  | deleteCar (id : Nat)
  | deleteRental (id : Nat)
  | updateCar (id : Nat) (make model : String) (year : Nat)
  | updateRental (id : Nat) (car_id customer_id start_date end_date : Nat) (status : RentalStatus)
deriving DecidableEq

/-- Run one operation.  A trapped creation (`none`) commits no state change
(canister traps roll back). -/
def applyOp (s : State) : Op → State
  | .addCar ok mk md yr =>
    match add_car ok mk md yr s with
    | some (_, s') => s'
    | none => s
  | .addRental ok cid cust sd ed st =>
    match add_rental_request ok cid cust sd ed st s with
    | some (_, s') => s'
    | none => s
  | .deleteCar id => (delete_car id s).2
  | .deleteRental id => (delete_rental_request id s).2
  | .updateCar id mk md yr => (update_car id mk md yr s).2
  | .updateRental id cid cust sd ed st => (update_rental_request id cid cust sd ed st s).2

/-- Run a sequence of operations from a state. -/
def applyOps (s : State) : List Op → State
  | [] => s
  | op :: ops => applyOps (applyOp s op) ops

/-- The identifiers assigned by one operation: the `id` field of the record
returned by a successful creation, nothing otherwise. -/
def opAssignedIds (s : State) : Op → List Nat
  | .addCar ok mk md yr =>
    match add_car ok mk md yr s with
    | some (Except.ok car, _) => [car.id]
    | _ => []
  | .addRental ok cid cust sd ed st =>
    match add_rental_request ok cid cust sd ed st s with
    | some (Except.ok r, _) => [r.id]
    | _ => []
  | _ => []

/-- All identifiers assigned along a run, in assignment order. -/
def runIds (s : State) : List Op → List Nat
  | [] => []
  | op :: ops => opAssignedIds s op ++ runIds (applyOp s op) ops

/-- `1` when the operation is a car creation that returns `Ok`. -/
def opCarCreates (s : State) : Op → Nat
  | .addCar ok mk md yr =>
    match add_car ok mk md yr s with
    | some (Except.ok _, _) => 1
    | _ => 0
  | _ => 0

/-- `1` when the operation is a car deletion that returns `Ok`. -/
def opCarDeletes (s : State) : Op → Nat
  | .deleteCar id =>
    match (delete_car id s).1 with
    | Except.ok _ => 1
    | Except.error _ => 0
  | _ => 0

/-- `1` when the operation is a rental-request creation that returns `Ok`. -/
def opRentalCreates (s : State) : Op → Nat
  | .addRental ok cid cust sd ed st =>
    match add_rental_request ok cid cust sd ed st s with
    | some (Except.ok _, _) => 1
    | _ => 0
  | _ => 0

/-- `1` when the operation is a rental-request deletion that returns `Ok`. -/
def opRentalDeletes (s : State) : Op → Nat
  | .deleteRental id =>
    match (delete_rental_request id s).1 with
    | Except.ok _ => 1
    | Except.error _ => 0
  | _ => 0

/-- Number of successful car creations along a run. -/
def runCarCreates (s : State) : List Op → Nat
  | [] => 0
  | op :: ops => opCarCreates s op + runCarCreates (applyOp s op) ops

/-- Number of successful car deletions along a run. -/
def runCarDeletes (s : State) : List Op → Nat
  | [] => 0
  | op :: ops => opCarDeletes s op + runCarDeletes (applyOp s op) ops

/-- Number of successful rental-request creations along a run. -/
def runRentalCreates (s : State) : List Op → Nat
  | [] => 0
  | op :: ops => opRentalCreates s op + runRentalCreates (applyOp s op) ops

/-- Number of successful rental-request deletions along a run. -/
def runRentalDeletes (s : State) : List Op → Nat
  | [] => 0
  | op :: ops => opRentalDeletes s op + runRentalDeletes (applyOp s op) ops

/-! ### Association-list map lemmas -/

/-- The map's well-formedness: entries in strictly ascending key order. -/
def sortedKeys (l : List (Nat × α)) : Prop :=
  l.Pairwise (fun p q => p.1 < q.1)

theorem mem_mapInsert {k : Nat} {v : α} {l : List (Nat × α)} {p : Nat × α}
    (h : p ∈ mapInsert k v l) : p = (k, v) ∨ p ∈ l := by
  induction l with
  | nil => simpa [mapInsert] using h
  | cons q t ih =>
    obtain ⟨k', v'⟩ := q
    simp only [mapInsert] at h
    split_ifs at h with h1 h2
    · simpa using h
    · subst h2
      rcases List.mem_cons.1 h with h | h
      · exact Or.inl h
      · exact Or.inr (List.mem_cons_of_mem _ h)
    · rcases List.mem_cons.1 h with h | h
      · exact Or.inr (by simp [h])
      · rcases ih h with h3 | h3
        · exact Or.inl h3
        · exact Or.inr (List.mem_cons_of_mem _ h3)

theorem sortedKeys_mapInsert {k : Nat} {v : α} {l : List (Nat × α)}
    (h : sortedKeys l) : sortedKeys (mapInsert k v l) := by
  induction l with
  | nil => simp [sortedKeys, mapInsert]
  | cons q t ih =>
    obtain ⟨k', v'⟩ := q
    rcases List.pairwise_cons.1 h with ⟨hq, ht⟩
    simp only [mapInsert]
    split_ifs with h1 h2
    · refine List.pairwise_cons.2 ⟨?_, h⟩
      intro p hp
      rcases List.mem_cons.1 hp with rfl | hp
      · exact h1
      · exact lt_trans h1 (hq p hp)
    · subst h2
      exact List.pairwise_cons.2 ⟨hq, ht⟩
    · refine List.pairwise_cons.2 ⟨?_, ih ht⟩
      intro p hp
      rcases mem_mapInsert hp with rfl | hp
      · show k' < k
        omega
      · exact hq p hp

theorem mapGet_some_mem {k : Nat} {l : List (Nat × α)} {w : α}
    (h : mapGet k l = some w) : (k, w) ∈ l := by
  induction l with
  | nil => simp [mapGet] at h
  | cons q t ih =>
    obtain ⟨k', v'⟩ := q
    simp only [mapGet] at h
    split_ifs at h with h1
    · subst h1
      obtain rfl : v' = w := by injection h
      exact List.mem_cons_self _ _
    · exact List.mem_cons_of_mem _ (ih h)

theorem mapGet_eq_none {k : Nat} {l : List (Nat × α)}
    (h : ∀ p ∈ l, p.1 ≠ k) : mapGet k l = none := by
  induction l with
  | nil => rfl
  | cons q t ih =>
    obtain ⟨k', v'⟩ := q
    have hk : k ≠ k' := fun e => h (k', v') (List.mem_cons_self _ _) e.symm
    simp only [mapGet, if_neg hk]
    exact ih fun p hp => h p (List.mem_cons_of_mem _ hp)

theorem mapGet_mapInsert_self (k : Nat) (v : α) (l : List (Nat × α)) :
    mapGet k (mapInsert k v l) = some v := by
  induction l with
  | nil => simp [mapInsert, mapGet]
  | cons q t ih =>
    obtain ⟨k', v'⟩ := q
    simp only [mapInsert]
    split_ifs with h1 h2
    · simp [mapGet]
    · simp [mapGet]
    · simp only [mapGet, if_neg h2]
      exact ih

theorem length_mapInsert_of_none {k : Nat} {v : α} {l : List (Nat × α)}
    (h : mapGet k l = none) : (mapInsert k v l).length = l.length + 1 := by
  induction l with
  | nil => simp [mapInsert]
  | cons q t ih =>
    obtain ⟨k', v'⟩ := q
    simp only [mapGet] at h
    split_ifs at h with h1
    simp only [mapInsert]
    split_ifs with h2
    · simp
    · simp [ih h]

theorem length_mapInsert_of_some {k : Nat} {v w : α} {l : List (Nat × α)}
    (hs : sortedKeys l) (h : mapGet k l = some w) :
    (mapInsert k v l).length = l.length := by
  induction l with
  | nil => simp [mapGet] at h
  | cons q t ih =>
    obtain ⟨k', v'⟩ := q
    rcases List.pairwise_cons.1 hs with ⟨hq, ht⟩
    simp only [mapGet] at h
    split_ifs at h with h1
    · simp only [mapInsert]
      rw [if_neg (by omega : ¬ k < k'), if_pos h1]
      simp
    · have hk : k' < k := hq _ (mapGet_some_mem h)
      simp only [mapInsert]
      rw [if_neg (by omega : ¬ k < k'), if_neg h1]
      simp [ih ht h]

theorem mapRemove_sublist (k : Nat) (l : List (Nat × α)) :
    List.Sublist (mapRemove k l).2 l := by
  induction l with
  | nil => simp [mapRemove]
  | cons q t ih =>
    obtain ⟨k', v'⟩ := q
    simp only [mapRemove]
    split_ifs with h1
    · exact List.sublist_cons_self _ _
    · exact List.Sublist.cons₂ _ ih

theorem mapRemove_fst_none {k : Nat} {l : List (Nat × α)}
    (h : (mapRemove k l).1 = none) : (mapRemove k l).2 = l := by
  induction l with
  | nil => rfl
  | cons q t ih =>
    obtain ⟨k', v'⟩ := q
    simp only [mapRemove] at h ⊢
    split_ifs at h ⊢ with h1
    exact congrArg (List.cons (k', v')) (ih h)

theorem length_mapRemove_of_fst_some {k : Nat} {l : List (Nat × α)} {w : α}
    (h : (mapRemove k l).1 = some w) : (mapRemove k l).2.length + 1 = l.length := by
  induction l with
  | nil => simp [mapRemove] at h
  | cons q t ih =>
    obtain ⟨k', v'⟩ := q
    simp only [mapRemove] at h ⊢
    split_ifs at h ⊢ with h1
    · simp
    · have := ih h
      simp only [List.length_cons]
      omega

/-! ### State-shape helpers -/

theorem delete_car_snd (id : Nat) (s : State) :
    (delete_car id s).2 = { s with cars := (mapRemove id s.cars).2 } := by
  rcases hr : mapRemove id s.cars with ⟨o, cars'⟩
  cases o <;> simp [delete_car, hr]

theorem delete_rental_snd (id : Nat) (s : State) :
    (delete_rental_request id s).2 = { s with rentals := (mapRemove id s.rentals).2 } := by
  rcases hr : mapRemove id s.rentals with ⟨o, rentals'⟩
  cases o <;> simp [delete_rental_request, hr]

/-! ### The reachability invariant -/

/-- Invariant of every reachable state: both maps are in strictly ascending
key order, every key is at most the counter, and every stored record's `id`
field equals its storage key. -/
structure Inv (s : State) : Prop where
  carsSorted : sortedKeys s.cars
  rentalsSorted : sortedKeys s.rentals
  carsLe : ∀ p ∈ s.cars, p.1 ≤ s.counter
  rentalsLe : ∀ p ∈ s.rentals, p.1 ≤ s.counter
  carsKeyId : ∀ p ∈ s.cars, p.2.id = p.1
  rentalsKeyId : ∀ p ∈ s.rentals, p.2.id = p.1

theorem inv_initState : Inv initState := by
  refine ⟨?_, ?_, ?_, ?_, ?_, ?_⟩ <;> simp [initState, sortedKeys]

theorem inv_replace_cars {s : State} (h : Inv s) {cars' : List (Nat × Car)}
    (hsub : List.Sublist cars' s.cars) : Inv { s with cars := cars' } :=
  ⟨h.carsSorted.sublist hsub, h.rentalsSorted,
   fun p hp => h.carsLe p (hsub.subset hp), h.rentalsLe,
   fun p hp => h.carsKeyId p (hsub.subset hp), h.rentalsKeyId⟩

theorem inv_replace_rentals {s : State} (h : Inv s) {rentals' : List (Nat × RentalRequest)}
    (hsub : List.Sublist rentals' s.rentals) : Inv { s with rentals := rentals' } :=
  ⟨h.carsSorted, h.rentalsSorted.sublist hsub,
   h.carsLe, fun p hp => h.rentalsLe p (hsub.subset hp),
   h.carsKeyId, fun p hp => h.rentalsKeyId p (hsub.subset hp)⟩

theorem inv_insert_car {s : State} (h : Inv s) {id : Nat} {c : Car}
    (hle : id ≤ s.counter) (hid : c.id = id) :
    Inv { s with cars := mapInsert id c s.cars } := by
  refine ⟨sortedKeys_mapInsert h.carsSorted, h.rentalsSorted, ?_, h.rentalsLe, ?_, h.rentalsKeyId⟩
  · intro p hp
    rcases mem_mapInsert hp with rfl | hp
    · exact hle
    · exact h.carsLe p hp
  · intro p hp
    rcases mem_mapInsert hp with rfl | hp
    · exact hid
    · exact h.carsKeyId p hp

theorem inv_insert_rental {s : State} (h : Inv s) {id : Nat} {r : RentalRequest}
    (hle : id ≤ s.counter) (hid : r.id = id) :
    Inv { s with rentals := mapInsert id r s.rentals } := by
  refine ⟨h.carsSorted, sortedKeys_mapInsert h.rentalsSorted, h.carsLe, ?_, h.carsKeyId, ?_⟩
  · intro p hp
    rcases mem_mapInsert hp with rfl | hp
    · exact hle
    · exact h.rentalsLe p hp
  · intro p hp
    rcases mem_mapInsert hp with rfl | hp
    · exact hid
    · exact h.rentalsKeyId p hp

theorem inv_create_car {s : State} (h : Inv s) (c : Car)
    (hid : c.id = s.counter + 1) :
    Inv { s with counter := s.counter + 1, cars := mapInsert (s.counter + 1) c s.cars } := by
  refine ⟨sortedKeys_mapInsert h.carsSorted, h.rentalsSorted, ?_, ?_, ?_, h.rentalsKeyId⟩
  · intro p hp
    rcases mem_mapInsert hp with rfl | hp
    · exact Nat.le_refl _
    · exact Nat.le_succ_of_le (h.carsLe p hp)
  · intro p hp
    exact Nat.le_succ_of_le (h.rentalsLe p hp)
  · intro p hp
    rcases mem_mapInsert hp with rfl | hp
    · exact hid
    · exact h.carsKeyId p hp

theorem inv_create_rental {s : State} (h : Inv s) (r : RentalRequest)
    (hid : r.id = s.counter + 1) :
    Inv { s with counter := s.counter + 1, rentals := mapInsert (s.counter + 1) r s.rentals } := by
  refine ⟨h.carsSorted, sortedKeys_mapInsert h.rentalsSorted, ?_, ?_, h.carsKeyId, ?_⟩
  · intro p hp
    exact Nat.le_succ_of_le (h.carsLe p hp)
  · intro p hp
    rcases mem_mapInsert hp with rfl | hp
    · exact Nat.le_refl _
    · exact Nat.le_succ_of_le (h.rentalsLe p hp)
  · intro p hp
    rcases mem_mapInsert hp with rfl | hp
    · exact hid
    · exact h.rentalsKeyId p hp

theorem inv_applyOp {s : State} (h : Inv s) (op : Op) : Inv (applyOp s op) := by
  cases op with
  | addCar ok mk md yr =>
    cases ok with
    | false => simpa [applyOp, add_car, cellSet] using h
    | true =>
      have : applyOp s (Op.addCar true mk md yr)
          = { s with counter := s.counter + 1,
                     cars := mapInsert (s.counter + 1)
                       { id := s.counter + 1, make := mk, model := md, year := yr,
                         available := true } s.cars } := by
        simp [applyOp, add_car, cellSet]
      rw [this]
      exact inv_create_car h _ rfl
  | addRental ok cid cust sd ed st =>
    cases ok with
    | false => simpa [applyOp, add_rental_request, cellSet] using h
    | true =>
      have : applyOp s (Op.addRental true cid cust sd ed st)
          = { s with counter := s.counter + 1,
                     rentals := mapInsert (s.counter + 1)
                       { id := s.counter + 1, car_id := cid, customer_id := cust,
                         start_date := sd, end_date := ed, status := st } s.rentals } := by
        simp [applyOp, add_rental_request, cellSet]
      rw [this]
      exact inv_create_rental h _ rfl
  | deleteCar id =>
    rw [show applyOp s (Op.deleteCar id) = (delete_car id s).2 from rfl, delete_car_snd]
    exact inv_replace_cars h (mapRemove_sublist id s.cars)
  | deleteRental id =>
    rw [show applyOp s (Op.deleteRental id) = (delete_rental_request id s).2 from rfl,
      delete_rental_snd]
    exact inv_replace_rentals h (mapRemove_sublist id s.rentals)
  | updateCar id mk md yr =>
    cases hm : mapGet id s.cars with
    | none =>
      have : applyOp s (Op.updateCar id mk md yr) = s := by
        simp [applyOp, update_car, hm]
      rw [this]
      exact h
    | some car =>
      have hmem := mapGet_some_mem hm
      have : applyOp s (Op.updateCar id mk md yr)
          = { s with cars := mapInsert id
                       { car with make := mk, model := md, year := yr } s.cars } := by
        simp [applyOp, update_car, hm]
      rw [this]
      exact inv_insert_car h (h.carsLe _ hmem) (h.carsKeyId _ hmem)
  | updateRental id cid cust sd ed st =>
    cases hm : mapGet id s.rentals with
    | none =>
      have : applyOp s (Op.updateRental id cid cust sd ed st) = s := by
        simp [applyOp, update_rental_request, hm]
      rw [this]
      exact h
    | some r =>
      have hmem := mapGet_some_mem hm
      have : applyOp s (Op.updateRental id cid cust sd ed st)
          = { s with rentals := mapInsert id
                       { r with car_id := cid, customer_id := cust, start_date := sd,
                                end_date := ed, status := st } s.rentals } := by
        simp [applyOp, update_rental_request, hm]
      rw [this]
      exact inv_insert_rental h (h.rentalsLe _ hmem) (h.rentalsKeyId _ hmem)

theorem inv_applyOps (ops : List Op) : ∀ s : State, Inv s → Inv (applyOps s ops) := by
  induction ops with
  | nil => intro s h; exact h
  | cons op ops ih => intro s h; exact ih _ (inv_applyOp h op)

theorem inv_reachable (ops : List Op) : Inv (applyOps initState ops) :=
  inv_applyOps ops initState inv_initState

/-! ### Counter behaviour and assigned identifiers -/

theorem counter_update_car (id : Nat) (mk md : String) (yr : Nat) (s : State) :
    ((update_car id mk md yr s).2).counter = s.counter := by
  cases hm : mapGet id s.cars <;> simp [update_car, hm]

theorem counter_update_rental (id cid cust sd ed : Nat) (st : RentalStatus) (s : State) :
    ((update_rental_request id cid cust sd ed st s).2).counter = s.counter := by
  cases hm : mapGet id s.rentals <;> simp [update_rental_request, hm]

/-- Along any run, the current counter is a strict lower bound for every
identifier yet to be assigned, and the assigned identifiers increase
strictly. -/
theorem chain_counter_runIds (ops : List Op) : ∀ s : State,
    List.Chain' (· < ·) (s.counter :: runIds s ops) := by
  induction ops with
  | nil => intro s; simp [runIds]
  | cons op ops ih =>
    intro s
    cases op with
    | addCar ok mk md yr =>
      cases ok with
      | false =>
        simpa [runIds, opAssignedIds, applyOp, add_car, cellSet] using ih s
      | true =>
        have h2 := ih (applyOp s (Op.addCar true mk md yr))
        have hc : (applyOp s (Op.addCar true mk md yr)).counter = s.counter + 1 := by
          simp [applyOp, add_car, cellSet]
        rw [hc] at h2
        have he : runIds s (Op.addCar true mk md yr :: ops)
            = (s.counter + 1) :: runIds (applyOp s (Op.addCar true mk md yr)) ops := by
          simp [runIds, opAssignedIds, add_car, cellSet]
        rw [he]
        exact List.chain'_cons.2 ⟨Nat.lt_succ_self _, h2⟩
    | addRental ok cid cust sd ed st =>
      cases ok with
      | false =>
        simpa [runIds, opAssignedIds, applyOp, add_rental_request, cellSet] using ih s
      | true =>
        have h2 := ih (applyOp s (Op.addRental true cid cust sd ed st))
        have hc : (applyOp s (Op.addRental true cid cust sd ed st)).counter = s.counter + 1 := by
          simp [applyOp, add_rental_request, cellSet]
        rw [hc] at h2
        have he : runIds s (Op.addRental true cid cust sd ed st :: ops)
            = (s.counter + 1) :: runIds (applyOp s (Op.addRental true cid cust sd ed st)) ops := by
          simp [runIds, opAssignedIds, add_rental_request, cellSet]
        rw [he]
        exact List.chain'_cons.2 ⟨Nat.lt_succ_self _, h2⟩
    | deleteCar id =>
      have h2 := ih (applyOp s (Op.deleteCar id))
      have hc : (applyOp s (Op.deleteCar id)).counter = s.counter := by
        simp [applyOp, delete_car_snd]
      rw [hc] at h2
      simpa [runIds, opAssignedIds] using h2
    | deleteRental id =>
      have h2 := ih (applyOp s (Op.deleteRental id))
      have hc : (applyOp s (Op.deleteRental id)).counter = s.counter := by
        simp [applyOp, delete_rental_snd]
      rw [hc] at h2
      simpa [runIds, opAssignedIds] using h2
    | updateCar id mk md yr =>
      have h2 := ih (applyOp s (Op.updateCar id mk md yr))
      have hc : (applyOp s (Op.updateCar id mk md yr)).counter = s.counter := by
        simpa [applyOp] using counter_update_car id mk md yr s
      rw [hc] at h2
      simpa [runIds, opAssignedIds] using h2
    | updateRental id cid cust sd ed st =>
      have h2 := ih (applyOp s (Op.updateRental id cid cust sd ed st))
      have hc : (applyOp s (Op.updateRental id cid cust sd ed st)).counter = s.counter := by
        simpa [applyOp] using counter_update_rental id cid cust sd ed st s
      rw [hc] at h2
      simpa [runIds, opAssignedIds] using h2

/-! ### Entry-count bookkeeping -/

theorem carStep (op : Op) {s : State} (h : Inv s) :
    (applyOp s op).cars.length + opCarDeletes s op
      = s.cars.length + opCarCreates s op := by
  cases op with
  | addCar ok mk md yr =>
    cases ok with
    | false => simp [applyOp, opCarCreates, opCarDeletes, add_car, cellSet]
    | true =>
      have hnone : mapGet (s.counter + 1) s.cars = none :=
        mapGet_eq_none fun p hp e => by have := h.carsLe p hp; omega
      simp [applyOp, opCarCreates, opCarDeletes, add_car, cellSet,
        length_mapInsert_of_none hnone]
  | addRental ok cid cust sd ed st =>
    cases ok <;> simp [applyOp, opCarCreates, opCarDeletes, add_rental_request, cellSet]
  | deleteCar id =>
    rcases hr : mapRemove id s.cars with ⟨o, cars'⟩
    cases o with
    | none =>
      have he : cars' = s.cars := by
        have h2 := mapRemove_fst_none (k := id) (l := s.cars) (by rw [hr])
        rw [hr] at h2
        exact h2
      subst he
      simp [applyOp, opCarCreates, opCarDeletes, delete_car, hr]
    | some w =>
      have hlen := length_mapRemove_of_fst_some (k := id) (l := s.cars) (w := w) (by rw [hr])
      rw [hr] at hlen
      simp only [applyOp, opCarCreates, opCarDeletes, delete_car, hr]
      simpa using hlen
  | deleteRental id =>
    rcases hr : mapRemove id s.rentals with ⟨o, rentals'⟩
    cases o <;> simp [applyOp, opCarCreates, opCarDeletes, delete_rental_request, hr]
  | updateCar id mk md yr =>
    cases hm : mapGet id s.cars with
    | none => simp [applyOp, opCarCreates, opCarDeletes, update_car, hm]
    | some car =>
      simp [applyOp, opCarCreates, opCarDeletes, update_car, hm,
        length_mapInsert_of_some h.carsSorted hm]
  | updateRental id cid cust sd ed st =>
    cases hm : mapGet id s.rentals with
    | none => simp [applyOp, opCarCreates, opCarDeletes, update_rental_request, hm]
    | some r => simp [applyOp, opCarCreates, opCarDeletes, update_rental_request, hm]

theorem rentalStep (op : Op) {s : State} (h : Inv s) :
    (applyOp s op).rentals.length + opRentalDeletes s op
      = s.rentals.length + opRentalCreates s op := by
  cases op with
  | addRental ok cid cust sd ed st =>
    cases ok with
    | false => simp [applyOp, opRentalCreates, opRentalDeletes, add_rental_request, cellSet]
    | true =>
      have hnone : mapGet (s.counter + 1) s.rentals = none :=
        mapGet_eq_none fun p hp e => by have := h.rentalsLe p hp; omega
      simp [applyOp, opRentalCreates, opRentalDeletes, add_rental_request, cellSet,
        length_mapInsert_of_none hnone]
  | addCar ok mk md yr =>
    cases ok <;> simp [applyOp, opRentalCreates, opRentalDeletes, add_car, cellSet]
  | deleteRental id =>
    rcases hr : mapRemove id s.rentals with ⟨o, rentals'⟩
    cases o with
    | none =>
      have he : rentals' = s.rentals := by
        have h2 := mapRemove_fst_none (k := id) (l := s.rentals) (by rw [hr])
        rw [hr] at h2
        exact h2
      subst he
      simp [applyOp, opRentalCreates, opRentalDeletes, delete_rental_request, hr]
    | some w =>
      have hlen := length_mapRemove_of_fst_some (k := id) (l := s.rentals) (w := w) (by rw [hr])
      rw [hr] at hlen
      simp only [applyOp, opRentalCreates, opRentalDeletes, delete_rental_request, hr]
      simpa using hlen
  | deleteCar id =>
    rcases hr : mapRemove id s.cars with ⟨o, cars'⟩
    cases o <;> simp [applyOp, opRentalCreates, opRentalDeletes, delete_car, hr]
  | updateRental id cid cust sd ed st =>
    cases hm : mapGet id s.rentals with
    | none => simp [applyOp, opRentalCreates, opRentalDeletes, update_rental_request, hm]
    | some r =>
      simp [applyOp, opRentalCreates, opRentalDeletes, update_rental_request, hm,
        length_mapInsert_of_some h.rentalsSorted hm]
  | updateCar id mk md yr =>
    cases hm : mapGet id s.cars with
    | none => simp [applyOp, opRentalCreates, opRentalDeletes, update_car, hm]
    | some car => simp [applyOp, opRentalCreates, opRentalDeletes, update_car, hm]

theorem carLen_applyOps (ops : List Op) : ∀ s : State, Inv s →
    (applyOps s ops).cars.length + runCarDeletes s ops
      = s.cars.length + runCarCreates s ops := by
  induction ops with
  | nil => intro s h; simp [applyOps, runCarDeletes, runCarCreates]
  | cons op ops ih =>
    intro s h
    have hstep := carStep op h
    have hIH := ih (applyOp s op) (inv_applyOp h op)
    simp only [applyOps, runCarDeletes, runCarCreates]
    omega

theorem rentalLen_applyOps (ops : List Op) : ∀ s : State, Inv s →
    (applyOps s ops).rentals.length + runRentalDeletes s ops
      = s.rentals.length + runRentalCreates s ops := by
  induction ops with
  | nil => intro s h; simp [applyOps, runRentalDeletes, runRentalCreates]
  | cons op ops ih =>
    intro s h
    have hstep := rentalStep op h
    have hIH := ih (applyOp s op) (inv_applyOp h op)
    simp only [applyOps, runRentalDeletes, runRentalCreates]
    omega

/-! ### Listing order -/

theorem listCars_ids_sorted {s : State} (h : Inv s) :
    List.Pairwise (· < ·) ((list_cars s).map Car.id) := by
  have he : (list_cars s).map Car.id = s.cars.map Prod.fst := by
    simp only [list_cars, List.map_map]
    exact List.map_congr_left fun p hp => h.carsKeyId p hp
  rw [he]
  exact List.pairwise_map.2 h.carsSorted

theorem listRentals_ids_sorted {s : State} (h : Inv s) :
    List.Pairwise (· < ·) ((list_rental_requests s).map RentalRequest.id) := by
  have he : (list_rental_requests s).map RentalRequest.id = s.rentals.map Prod.fst := by
    simp only [list_rental_requests, List.map_map]
    exact List.map_congr_left fun p hp => h.rentalsKeyId p hp
  rw [he]
  exact List.pairwise_map.2 h.rentalsSorted

/-! ### Serialization (spec §4.4)

The `Storable` impls of `lib.rs` delegate to candid `Encode!`/`Decode!`,
whose code is not under `src/`.  Modelled from the spec: §4.4 requires an
`encode`/`decode` pair over byte strings, total and lossless on valid
instances.  We realize that contract field by field: fixed-width
little-endian integers, length-prefixed strings, a tag byte for the status
and the bool, and decoding must consume the bytes exactly. -/

/-- Little-endian encoding of `v` into exactly `n` bytes. -/
def encodeLE : Nat → Nat → List Nat
  | 0, _ => []
  | n + 1, v => v % 256 :: encodeLE n (v / 256)

/-- Decode `n` little-endian bytes, returning the value and the rest. -/
def decodeLE : Nat → List Nat → Option (Nat × List Nat)
  | 0, l => some (0, l)
  | _ + 1, [] => none
  | n + 1, b :: l =>
    match decodeLE n l with
    | some (x, r) => some (b + 256 * x, r)
    | none => none

theorem decodeLE_encodeLE (n : Nat) : ∀ (v : Nat) (r : List Nat),
    decodeLE n (encodeLE n v ++ r) = some (v % 256 ^ n, r) := by
  induction n with
  | zero => intro v r; simp [encodeLE, decodeLE, Nat.mod_one]
  | succ n ih =>
    intro v r
    have hsplit : encodeLE (n + 1) v ++ r = (v % 256) :: (encodeLE n (v / 256) ++ r) := rfl
    rw [hsplit]
    have hstep : decodeLE (n + 1) ((v % 256) :: (encodeLE n (v / 256) ++ r))
        = some (v % 256 + 256 * (v / 256 % 256 ^ n), r) := by
      simp only [decodeLE, ih (v / 256) r]
    rw [hstep]
    have he : v % 256 + 256 * (v / 256 % 256 ^ n) = v % 256 ^ (n + 1) := by
      rw [pow_succ']
      exact Nat.mod_mul.symm
    rw [he]

/-- One byte for a bool: `1` for true, `0` for false. -/
def encodeBool (b : Bool) : List Nat :=
  [if b then 1 else 0]

def decodeBool : List Nat → Option (Bool × List Nat)
  | 0 :: r => some (false, r)
  | 1 :: r => some (true, r)
  | _ => none

theorem decodeBool_encodeBool (b : Bool) (r : List Nat) :
    decodeBool (encodeBool b ++ r) = some (b, r) := by
  cases b <;> rfl

/-- One tag byte for the four-variant status. -/
def encodeStatus : RentalStatus → List Nat
  | .Pending => [0]
  | .Active => [1]
  | .Completed => [2]
  | .Canceled => [3]

def decodeStatus : List Nat → Option (RentalStatus × List Nat)
  | 0 :: r => some (.Pending, r)
  | 1 :: r => some (.Active, r)
  | 2 :: r => some (.Completed, r)
  | 3 :: r => some (.Canceled, r)
  | _ => none

theorem decodeStatus_encodeStatus (st : RentalStatus) (r : List Nat) :
    decodeStatus (encodeStatus st ++ r) = some (st, r) := by
  cases st <;> rfl

/-- Each character as its 4-byte code point. -/
def encodeChars : List Char → List Nat
  | [] => []
  | c :: cs => encodeLE 4 c.toNat ++ encodeChars cs

def decodeChars : Nat → List Nat → Option (List Char × List Nat)
  | 0, l => some ([], l)
  | n + 1, l =>
    match decodeLE 4 l with
    | some (x, r) =>
      match decodeChars n r with
      | some (cs, r') => some (Char.ofNat x :: cs, r')
      | none => none
    | none => none

theorem decodeChars_encodeChars (cs : List Char) : ∀ r : List Nat,
    decodeChars cs.length (encodeChars cs ++ r) = some (cs, r) := by
  induction cs with
  | nil => intro r; simp [encodeChars, decodeChars]
  | cons c cs ih =>
    intro r
    have hlt : c.toNat < 256 ^ 4 := by
      have h := UInt32.toNat_lt c.val
      have h2 : (256 : Nat) ^ 4 = 2 ^ 32 := by norm_num
      rw [h2]
      exact h
    simp only [encodeChars, List.append_assoc, List.length_cons, decodeChars,
      decodeLE_encodeLE, Nat.mod_eq_of_lt hlt, ih r, Char.ofNat_toNat]

/-- A string: its length as 8 bytes, then its characters. -/
def encodeString (s : String) : List Nat :=
  encodeLE 8 s.data.length ++ encodeChars s.data

def decodeString (l : List Nat) : Option (String × List Nat) :=
  match decodeLE 8 l with
  | some (n, r) =>
    match decodeChars n r with
    | some (cs, r') => some (String.mk cs, r')
    | none => none
  | none => none

theorem decodeString_encodeString (s : String) (h : s.data.length < 2 ^ 64) :
    ∀ r : List Nat, decodeString (encodeString s ++ r) = some (s, r) := by
  intro r
  have h256 : s.data.length < 256 ^ 8 := by
    have h2 : (256 : Nat) ^ 8 = 2 ^ 64 := by norm_num
    rw [h2]
    exact h
  simp only [encodeString, List.append_assoc, decodeString, decodeLE_encodeLE,
    Nat.mod_eq_of_lt h256, decodeChars_encodeChars]

/-- Validity of a `Car` as the Rust record: `u64` id, `u32` year, string
lengths expressible in the length prefix. -/
def Car.valid (c : Car) : Prop :=
  c.id < 2 ^ 64 ∧ c.year < 2 ^ 32 ∧
  c.make.data.length < 2 ^ 64 ∧ c.model.data.length < 2 ^ 64

/-- Validity of a `RentalRequest` as the Rust record: all fields `u64`. -/
def RentalRequest.valid (q : RentalRequest) : Prop :=
  q.id < 2 ^ 64 ∧ q.car_id < 2 ^ 64 ∧ q.customer_id < 2 ^ 64 ∧
  q.start_date < 2 ^ 64 ∧ q.end_date < 2 ^ 64

/-- `Storable::to_bytes` for `Car` (candid modelled from spec §4.4). -/
def Car.to_bytes (c : Car) : List Nat :=
  encodeLE 8 c.id ++ encodeString c.make ++ encodeString c.model ++
    encodeLE 4 c.year ++ encodeBool c.available

/-- `Storable::from_bytes` for `Car`: decode the fields in order and require
the input to be consumed exactly. -/
def Car.from_bytes (l : List Nat) : Option Car :=
  match decodeLE 8 l with
  | none => none
  | some (id, r1) =>
    match decodeString r1 with
    | none => none
    | some (mka, r2) =>
      match decodeString r2 with
      | none => none
      | some (md, r3) =>
        match decodeLE 4 r3 with
        | none => none
        | some (yr, r4) =>
          match decodeBool r4 with
          | none => none
          | some (av, r5) =>
            match r5 with
            | [] => some { id := id, make := mka, model := md, year := yr, available := av }
            | _ => none

/-- `Storable::to_bytes` for `RentalRequest` (candid modelled from spec §4.4). -/
def RentalRequest.to_bytes (q : RentalRequest) : List Nat :=
  encodeLE 8 q.id ++ encodeLE 8 q.car_id ++ encodeLE 8 q.customer_id ++
    encodeLE 8 q.start_date ++ encodeLE 8 q.end_date ++ encodeStatus q.status

/-- `Storable::from_bytes` for `RentalRequest`. -/
def RentalRequest.from_bytes (l : List Nat) : Option RentalRequest :=
  match decodeLE 8 l with
  | none => none
  | some (id, r1) =>
    match decodeLE 8 r1 with
    | none => none
    | some (cid, r2) =>
      match decodeLE 8 r2 with
      | none => none
      | some (cust, r3) =>
        match decodeLE 8 r3 with
        | none => none
        | some (sd, r4) =>
          match decodeLE 8 r4 with
          | none => none
          | some (ed, r5) =>
            match decodeStatus r5 with
            | none => none
            | some (st, r6) =>
              match r6 with
              | [] => some { id := id, car_id := cid, customer_id := cust,
                             start_date := sd, end_date := ed, status := st }
              | _ => none

theorem car_from_to {c : Car} (h : c.valid) :
    Car.from_bytes (Car.to_bytes c) = some c := by
  obtain ⟨h1, h2, h3, h4⟩ := h
  have p64 : (256 : Nat) ^ 8 = 2 ^ 64 := by norm_num
  have p32 : (256 : Nat) ^ 4 = 2 ^ 32 := by norm_num
  have e1 : c.id % 256 ^ 8 = c.id := Nat.mod_eq_of_lt (by rw [p64]; exact h1)
  have e2 : c.year % 256 ^ 4 = c.year := Nat.mod_eq_of_lt (by rw [p32]; exact h2)
  simp only [Car.to_bytes, Car.from_bytes, List.append_assoc, decodeLE_encodeLE, e1, e2,
    decodeString_encodeString c.make h3, decodeString_encodeString c.model h4]
  rw [show encodeBool c.available = encodeBool c.available ++ ([] : List Nat) by simp]
  simp only [decodeBool_encodeBool]

theorem rental_from_to {q : RentalRequest} (h : q.valid) :
    RentalRequest.from_bytes (RentalRequest.to_bytes q) = some q := by
  obtain ⟨h1, h2, h3, h4, h5⟩ := h
  have p64 : (256 : Nat) ^ 8 = 2 ^ 64 := by norm_num
  have e1 : q.id % 256 ^ 8 = q.id := Nat.mod_eq_of_lt (by rw [p64]; exact h1)
  have e2 : q.car_id % 256 ^ 8 = q.car_id := Nat.mod_eq_of_lt (by rw [p64]; exact h2)
  have e3 : q.customer_id % 256 ^ 8 = q.customer_id := Nat.mod_eq_of_lt (by rw [p64]; exact h3)
  have e4 : q.start_date % 256 ^ 8 = q.start_date := Nat.mod_eq_of_lt (by rw [p64]; exact h4)
  have e5 : q.end_date % 256 ^ 8 = q.end_date := Nat.mod_eq_of_lt (by rw [p64]; exact h5)
  simp only [RentalRequest.to_bytes, RentalRequest.from_bytes, List.append_assoc,
    decodeLE_encodeLE, e1, e2, e3, e4, e5]
  rw [show encodeStatus q.status = encodeStatus q.status ++ ([] : List Nat) by simp]
  simp only [decodeStatus_encodeStatus]

/-! ### Remaining helper definitions for the claims -/

/-- Bool test: is the creation result a returned `InvalidInput` error? -/
def returnsInvalidInput : Option (Except Error Car × State) → Bool
  | some (Except.error (Error.InvalidInput _), _) => true
  | _ => false

/-- Bool test that an `Except` result is `Ok`. -/
def exceptIsOk : Except Error α → Bool
  | Except.ok _ => true
  | Except.error _ => false

theorem filterMap_snd_eq_filter (g : β → Nat) (v : Nat) (l : List (Nat × β)) :
    l.filterMap (fun p => if g p.2 = v then some p.2 else none)
      = (l.map Prod.snd).filter (fun x => g x == v) := by
  induction l with
  | nil => rfl
  | cons q t ih =>
    by_cases h : g q.2 = v
    · simp [List.filterMap_cons, List.filter_cons, h, ih]
    · simp [List.filterMap_cons, List.filter_cons, h, ih]

/-- A concrete store with one car (id 1) and one rental request (id 2),
as produced by the spec's §8 scenario before the delete. -/
def scenarioState : State :=
  { counter := 2,
    cars := [(1, { id := 1, make := "Toyota", model := "Corolla", year := 2020,
                   available := true })],
    rentals := [(2, { id := 2, car_id := 1, customer_id := 5, start_date := 100,
                      end_date := 200, status := RentalStatus.Pending })] }

/-- The scenario car after `update_car(1, "Toyota", "Camry", 2021)` (used by
the update witness). -/
def camry : Car :=
  { id := 1, make := "Toyota", model := "Camry", year := 2021, available := true }

/-- A fully rewritten rental request (used by the update witness). -/
def rewrittenRequest : RentalRequest :=
  { id := 2, car_id := 3, customer_id := 6, start_date := 101, end_date := 201,
    status := RentalStatus.Canceled }

/-! ### The claims -/

/-- C1: for every call to `add_car` (and analogously `add_rental_request`)
in which the counter write succeeds, the returned record's `id` equals the
post-increment value `s.counter + 1` of the global identifier counter, the
state's counter is advanced to that same value, and on a fresh store the
first created record has id 1 (the spec's Toyota Corolla scenario). -/
theorem c1_post_increment_id (mk md : String) (yr cid cust sd ed : Nat)
    (st : RentalStatus) (s : State) :
    add_car true mk md yr s
      = some (Except.ok
            { id := s.counter + 1, make := mk, model := md, year := yr, available := true },
          { s with counter := s.counter + 1,
                   cars := mapInsert (s.counter + 1)
                     { id := s.counter + 1, make := mk, model := md, year := yr,
                       available := true } s.cars })
  ∧ add_rental_request true cid cust sd ed st s
      = some (Except.ok
            { id := s.counter + 1, car_id := cid, customer_id := cust,
              start_date := sd, end_date := ed, status := st },
          { s with counter := s.counter + 1,
                   rentals := mapInsert (s.counter + 1)
                     { id := s.counter + 1, car_id := cid, customer_id := cust,
                       start_date := sd, end_date := ed, status := st } s.rentals })
  ∧ add_car true "Toyota" "Corolla" 2020 initState
      = some (Except.ok
            { id := 1, make := "Toyota", model := "Corolla", year := 2020, available := true },
          { counter := 1,
            cars := [(1, { id := 1, make := "Toyota", model := "Corolla", year := 2020,
                           available := true })],
            rentals := [] }) :=
  ⟨rfl, rfl, rfl⟩

/-- C2: across every operation sequence from the initial state, the
identifiers assigned by successful creations — of either entity kind,
however interleaved — are strictly increasing and never repeat. -/
theorem c2_ids_strictly_increasing (ops : List Op) :
    List.Chain' (· < ·) (runIds initState ops) ∧ (runIds initState ops).Nodup := by
  have h := chain_counter_runIds ops initState
  have htail : List.Chain' (· < ·) (runIds initState ops) := h.tail
  refine ⟨htail, ?_⟩
  have hp : (runIds initState ops).Pairwise (· < ·) := List.chain'_iff_pairwise.1 htail
  exact hp.imp fun hab => Nat.ne_of_lt hab

/-- C3, counterexample: when the counter write fails, `add_car` does not
return an `InvalidInput` error — the `expect` panics, i.e. the call traps
(modelled as `none`) and produces no return value at all. -/
theorem c3_counterexample :
    add_car false "Toyota" "Corolla" 2020 initState = none
  ∧ returnsInvalidInput (add_car false "Toyota" "Corolla" 2020 initState) = false :=
  ⟨rfl, rfl⟩

/-- C3, amended: if the identifier-counter increment fails during a creation
operation, the operation panics (traps) instead of returning an
`InvalidInput` error; no state is committed — neither map changes and the
failed identifier is not assigned to any record. -/
theorem c3_amended_trap (mk md : String) (yr cid cust sd ed : Nat)
    (st : RentalStatus) (s : State) :
    add_car false mk md yr s = none
  ∧ add_rental_request false cid cust sd ed st s = none
  ∧ applyOp s (Op.addCar false mk md yr) = s
  ∧ applyOp s (Op.addRental false cid cust sd ed st) = s
  ∧ opAssignedIds s (Op.addCar false mk md yr) = []
  ∧ opAssignedIds s (Op.addRental false cid cust sd ed st) = [] :=
  ⟨rfl, rfl, rfl, rfl, rfl, rfl⟩

/-- C4: in every state reachable from the initial state, every entry of the
car map and of the rental-request map has its storage key equal to the `id`
field of the stored value. -/
theorem c4_key_eq_id (ops : List Op) :
    ((applyOps initState ops).cars.all fun p => p.2.id == p.1) = true
  ∧ ((applyOps initState ops).rentals.all fun p => p.2.id == p.1) = true := by
  have h := inv_reachable ops
  constructor
  · rw [List.all_eq_true]
    intro p hp
    simp [h.carsKeyId p hp]
  · rw [List.all_eq_true]
    intro p hp
    simp [h.rentalsKeyId p hp]

/-- C5: `update_car id mk md yr` on an absent id returns `NotFound` and
leaves the state unchanged; on a present id the stored car afterwards is the
prior stored car with `make`, `model`, `year` replaced and `id`, `available`
unchanged — and analogously `update_rental_request` rewrites every non-`id`
field. -/
theorem c5_update_semantics (id : Nat) (mk md : String) (yr cid cust sd ed : Nat)
    (st : RentalStatus) (s : State) :
    (mapGet id s.cars = none →
      update_car id mk md yr s
        = (Except.error (Error.NotFound ("Car with id=" ++ toString id ++ " not found")), s))
  ∧ (∀ c, mapGet id s.cars = some c →
      update_car id mk md yr s
        = (Except.ok { c with make := mk, model := md, year := yr },
           { s with cars := mapInsert id { c with make := mk, model := md, year := yr } s.cars })
      ∧ mapGet id ((update_car id mk md yr s).2).cars
          = some { c with make := mk, model := md, year := yr })
  ∧ (mapGet id s.rentals = none →
      update_rental_request id cid cust sd ed st s
        = (Except.error
            (Error.NotFound ("Rental request with id=" ++ toString id ++ " not found")), s))
  ∧ (∀ q, mapGet id s.rentals = some q →
      update_rental_request id cid cust sd ed st s
        = (Except.ok
            { q with car_id := cid, customer_id := cust, start_date := sd,
                     end_date := ed, status := st },
           { s with
             rentals := mapInsert id
                          { q with car_id := cid, customer_id := cust, start_date := sd,
                                   end_date := ed, status := st } s.rentals })
      ∧ mapGet id ((update_rental_request id cid cust sd ed st s).2).rentals
          = some { q with car_id := cid, customer_id := cust, start_date := sd,
                          end_date := ed, status := st }) := by
  refine ⟨?_, ?_, ?_, ?_⟩
  · intro h
    simp [update_car, h]
  · intro c h
    refine ⟨by simp [update_car, h], ?_⟩
    simp [update_car, h, mapGet_mapInsert_self]
  · intro h
    simp [update_rental_request, h]
  · intro q h
    refine ⟨by simp [update_rental_request, h], ?_⟩
    simp [update_rental_request, h, mapGet_mapInsert_self]

/-- Witness for C5: both branches of both update operations, exercised on
the concrete scenario store. -/
theorem c5_update_semantics_witness :
    (update_car 7 "A" "B" 1999 initState
      = (Except.error (Error.NotFound ("Car with id=" ++ toString 7 ++ " not found")),
         initState))
  ∧ (update_car 1 "Toyota" "Camry" 2021 scenarioState
      = (Except.ok camry, { scenarioState with cars := mapInsert 1 camry scenarioState.cars })
      ∧ mapGet 1 ((update_car 1 "Toyota" "Camry" 2021 scenarioState).2).cars = some camry)
  ∧ (update_rental_request 9 1 5 100 200 RentalStatus.Active initState
      = (Except.error
          (Error.NotFound ("Rental request with id=" ++ toString 9 ++ " not found")),
         initState))
  ∧ (update_rental_request 2 3 6 101 201 RentalStatus.Canceled scenarioState
      = (Except.ok rewrittenRequest,
         { scenarioState with
           rentals := mapInsert 2 rewrittenRequest scenarioState.rentals })
      ∧ mapGet 2 ((update_rental_request 2 3 6 101 201 RentalStatus.Canceled
            scenarioState).2).rentals
          = some rewrittenRequest) :=
  ⟨(c5_update_semantics 7 "A" "B" 1999 1 5 100 200 RentalStatus.Active initState).1 rfl,
   (c5_update_semantics 1 "Toyota" "Camry" 2021 1 5 100 200 RentalStatus.Active
      scenarioState).2.1
     { id := 1, make := "Toyota", model := "Corolla", year := 2020, available := true } rfl,
   (c5_update_semantics 9 "A" "B" 1999 1 5 100 200 RentalStatus.Active initState).2.2.1 rfl,
   (c5_update_semantics 2 "A" "B" 1999 3 6 101 201 RentalStatus.Canceled
      scenarioState).2.2.2
     { id := 2, car_id := 1, customer_id := 5, start_date := 100, end_date := 200,
       status := RentalStatus.Pending } rfl⟩

/-- C6: in every reachable state, `list_cars` (and `list_rental_requests`)
returns entries in strictly ascending id order, and its length equals the
number of successful creations of that kind minus the number of successful
deletions of that kind. -/
theorem c6_list_order_and_count (ops : List Op) :
    List.Pairwise (· < ·) ((list_cars (applyOps initState ops)).map Car.id)
  ∧ List.Pairwise (· < ·)
      ((list_rental_requests (applyOps initState ops)).map RentalRequest.id)
  ∧ (list_cars (applyOps initState ops)).length
      = runCarCreates initState ops - runCarDeletes initState ops
  ∧ (list_rental_requests (applyOps initState ops)).length
      = runRentalCreates initState ops - runRentalDeletes initState ops := by
  have h := inv_reachable ops
  have hc := carLen_applyOps ops initState inv_initState
  have hr := rentalLen_applyOps ops initState inv_initState
  rw [show initState.cars.length = 0 from rfl] at hc
  rw [show initState.rentals.length = 0 from rfl] at hr
  refine ⟨listCars_ids_sorted h, listRentals_ids_sorted h, ?_, ?_⟩
  · have he : (list_cars (applyOps initState ops)).length
        = (applyOps initState ops).cars.length := by
      simp [list_cars]
    rw [he]
    omega
  · have he : (list_rental_requests (applyOps initState ops)).length
        = (applyOps initState ops).rentals.length := by
      simp [list_rental_requests]
    rw [he]
    omega

/-- C7: `list_rental_requests_for_car v` returns exactly the subsequence of
`list_rental_requests` whose `car_id` equals `v`, in the same order, and
analogously `list_rental_requests_for_customer`. -/
theorem c7_secondary_queries (v cu : Nat) (s : State) :
    list_rental_requests_for_car v s
      = (list_rental_requests s).filter (fun r => r.car_id == v)
  ∧ List.Sublist (list_rental_requests_for_car v s) (list_rental_requests s)
  ∧ list_rental_requests_for_customer cu s
      = (list_rental_requests s).filter (fun r => r.customer_id == cu)
  ∧ List.Sublist (list_rental_requests_for_customer cu s) (list_rental_requests s) := by
  have h1 : list_rental_requests_for_car v s
      = (list_rental_requests s).filter (fun r => r.car_id == v) :=
    filterMap_snd_eq_filter RentalRequest.car_id v s.rentals
  have h2 : list_rental_requests_for_customer cu s
      = (list_rental_requests s).filter (fun r => r.customer_id == cu) :=
    filterMap_snd_eq_filter RentalRequest.customer_id cu s.rentals
  refine ⟨h1, ?_, h2, ?_⟩
  · rw [h1]
    exact List.filter_sublist _
  · rw [h2]
    exact List.filter_sublist _

/-- C8: decoding the bytes produced by encoding a valid `Car` or
`RentalRequest` yields the record back unchanged. -/
theorem c8_roundtrip (c : Car) (q : RentalRequest) (hc : c.valid) (hq : q.valid) :
    Car.from_bytes (Car.to_bytes c) = some c
  ∧ RentalRequest.from_bytes (RentalRequest.to_bytes q) = some q :=
  ⟨car_from_to hc, rental_from_to hq⟩

/-- Witness for C8: boundary values — empty strings and year 0 for the car,
and every one of the four status variants for rental requests. -/
theorem c8_roundtrip_witness :
    (Car.from_bytes (Car.to_bytes
        { id := 0, make := "", model := "", year := 0, available := true })
      = some { id := 0, make := "", model := "", year := 0, available := true })
  ∧ (Car.from_bytes (Car.to_bytes
        { id := 1, make := "Toyota", model := "Corolla", year := 2020, available := false })
      = some { id := 1, make := "Toyota", model := "Corolla", year := 2020,
               available := false })
  ∧ (RentalRequest.from_bytes (RentalRequest.to_bytes
        { id := 0, car_id := 0, customer_id := 0, start_date := 0, end_date := 0,
          status := RentalStatus.Pending })
      = some { id := 0, car_id := 0, customer_id := 0, start_date := 0, end_date := 0,
               status := RentalStatus.Pending })
  ∧ (RentalRequest.from_bytes (RentalRequest.to_bytes
        { id := 2, car_id := 1, customer_id := 5, start_date := 100, end_date := 200,
          status := RentalStatus.Active })
      = some { id := 2, car_id := 1, customer_id := 5, start_date := 100, end_date := 200,
               status := RentalStatus.Active })
  ∧ (RentalRequest.from_bytes (RentalRequest.to_bytes
        { id := 3, car_id := 1, customer_id := 5, start_date := 100, end_date := 200,
          status := RentalStatus.Completed })
      = some { id := 3, car_id := 1, customer_id := 5, start_date := 100, end_date := 200,
               status := RentalStatus.Completed })
  ∧ (RentalRequest.from_bytes (RentalRequest.to_bytes
        { id := 4, car_id := 1, customer_id := 5, start_date := 100, end_date := 200,
          status := RentalStatus.Canceled })
      = some { id := 4, car_id := 1, customer_id := 5, start_date := 100, end_date := 200,
               status := RentalStatus.Canceled }) :=
  ⟨(c8_roundtrip
      { id := 0, make := "", model := "", year := 0, available := true }
      { id := 0, car_id := 0, customer_id := 0, start_date := 0, end_date := 0,
        status := RentalStatus.Pending }
      ⟨by decide, by decide, by decide, by decide⟩
      ⟨by decide, by decide, by decide, by decide, by decide⟩).1,
   (c8_roundtrip
      { id := 1, make := "Toyota", model := "Corolla", year := 2020, available := false }
      { id := 0, car_id := 0, customer_id := 0, start_date := 0, end_date := 0,
        status := RentalStatus.Pending }
      ⟨by decide, by decide, by decide, by decide⟩
      ⟨by decide, by decide, by decide, by decide, by decide⟩).1,
   (c8_roundtrip
      { id := 0, make := "", model := "", year := 0, available := true }
      { id := 0, car_id := 0, customer_id := 0, start_date := 0, end_date := 0,
        status := RentalStatus.Pending }
      ⟨by decide, by decide, by decide, by decide⟩
      ⟨by decide, by decide, by decide, by decide, by decide⟩).2,
   (c8_roundtrip
      { id := 0, make := "", model := "", year := 0, available := true }
      { id := 2, car_id := 1, customer_id := 5, start_date := 100, end_date := 200,
        status := RentalStatus.Active }
      ⟨by decide, by decide, by decide, by decide⟩
      ⟨by decide, by decide, by decide, by decide, by decide⟩).2,
   (c8_roundtrip
      { id := 0, make := "", model := "", year := 0, available := true }
      { id := 3, car_id := 1, customer_id := 5, start_date := 100, end_date := 200,
        status := RentalStatus.Completed }
      ⟨by decide, by decide, by decide, by decide⟩
      ⟨by decide, by decide, by decide, by decide, by decide⟩).2,
   (c8_roundtrip
      { id := 0, make := "", model := "", year := 0, available := true }
      { id := 4, car_id := 1, customer_id := 5, start_date := 100, end_date := 200,
        status := RentalStatus.Canceled }
      ⟨by decide, by decide, by decide, by decide⟩
      ⟨by decide, by decide, by decide, by decide, by decide⟩).2⟩

/-- C9: `delete_car` modifies only the car map — the rental-request map and
the identifier counter are untouched, every `list_rental_requests_for_car`
query is unchanged, and in the spec's §8 scenario the rental request whose
`car_id` references the deleted vehicle is still returned afterwards. -/
theorem c9_delete_car_frame (id v : Nat) (s : State) :
    ((delete_car id s).2).rentals = s.rentals
  ∧ ((delete_car id s).2).counter = s.counter
  ∧ list_rental_requests_for_car v ((delete_car id s).2)
      = list_rental_requests_for_car v s
  ∧ list_rental_requests_for_car 1
        (applyOps initState
          [Op.addCar true "Toyota" "Corolla" 2020,
           Op.addRental true 1 5 100 200 RentalStatus.Pending,
           Op.deleteCar 1])
      = [{ id := 2, car_id := 1, customer_id := 5, start_date := 100, end_date := 200,
           status := RentalStatus.Pending }] := by
  refine ⟨?_, ?_, ?_, by decide⟩
  · rw [delete_car_snd]
  · rw [delete_car_snd]
  · rw [delete_car_snd]
    rfl

/-- C10: for every input, `add_car` and `add_rental_request` never produce
the `Err` branch of their `Result`: whenever a value is returned (the call
does not trap), it is `Ok`. -/
theorem c10_creations_never_err (ok : Bool) (mk md : String)
    (yr cid cust sd ed : Nat) (st : RentalStatus) (s : State) :
    ((add_car ok mk md yr s).all fun p => exceptIsOk p.1) = true
  ∧ ((add_rental_request ok cid cust sd ed st s).all fun p => exceptIsOk p.1) = true := by
  cases ok <;> exact ⟨rfl, rfl⟩

end CarRental
